import Mathlib

/-!
Verification of the interactive message page (`script.js` and its sibling
variant): ambient/burst particle field, the reveal/cycle state machine, event
coordinate resolution, and the optional Telegram WebApp integration.

JavaScript numbers are modelled as rationals (`ℚ`); `Math.random()` is
modelled by an explicit stream `rand : ℕ → ℚ` together with a counter giving
the position of the next value to be consumed, so that every call site of
`Math.random()` in the source corresponds to exactly one consumed stream
element, in source evaluation order.  A JavaScript value that may be
`undefined` is modelled as an `Option`.
-/

/-- Configuration value `CONFIG.particles.count`. -/
def CONFIG_particles_count : ℕ := 50

/-- Configuration value `CONFIG.particles.maxSpeed` (0.5). -/
def CONFIG_particles_maxSpeed : ℚ := 1/2

/-- Configuration value `CONFIG.particles.size`. -/
def CONFIG_particles_size : ℚ := 2

/-- Configuration value `CONFIG.particles.glowOnReveal`. -/
def CONFIG_particles_glowOnReveal : Bool := true

/-- Configuration value `CONFIG.animation.particleBurstCount`. -/
def CONFIG_animation_particleBurstCount : ℕ := 15

/-- One particle of the field: all numeric fields of the JS `Particle` object. -/
structure Particle where
  x : ℚ
  y : ℚ
  size : ℚ
  speedX : ℚ
  speedY : ℚ
  opacity : ℚ
  life : ℚ
  decay : ℚ
  deriving Repr, DecidableEq

/-- JavaScript `a || b` for a possibly-undefined number `a`: the default is
taken when `a` is `undefined` or `0` (both falsy). -/
def jsOrQ (a : Option ℚ) (b : ℚ) : ℚ :=
  match a with
  | none => b
  | some v => if v = 0 then b else v

/-- The `Particle` constructor.  `rand` is the `Math.random()` stream and `i`
the position of its next unconsumed value; the constructor returns the new
particle together with the advanced position.  `Math.random()` is only called
on the branches where the source calls it (in source order): for `x`/`y` only
when the argument is falsy, for `size` only when `burst`, for `opacity` only
when not `burst`. -/
def mkParticle (rand : ℕ → ℚ) (w h : ℚ) (x0 y0 : Option ℚ) (burst : Bool)
    (i : ℕ) : Particle × ℕ :=
  let xr : ℚ × ℕ :=
    match x0 with
    | none => (rand i * w, i + 1)
    | some v => if v = 0 then (rand i * w, i + 1) else (v, i)
  let yr : ℚ × ℕ :=
    match y0 with
    | none => (rand xr.2 * h, xr.2 + 1)
    | some v => if v = 0 then (rand xr.2 * h, xr.2 + 1) else (v, xr.2)
  let sr : ℚ × ℕ :=
    if burst then (rand yr.2 * 3 + 1, yr.2 + 1) else (CONFIG_particles_size, yr.2)
  let sx : ℚ × ℕ :=
    ((rand sr.2 - 1/2) * (if burst then 2 else CONFIG_particles_maxSpeed), sr.2 + 1)
  let sy : ℚ × ℕ :=
    ((rand sx.2 - 1/2) * (if burst then 2 else CONFIG_particles_maxSpeed), sx.2 + 1)
  let op : ℚ × ℕ :=
    if burst then (1, sy.2) else (rand sy.2 * (1/2) + 3/10, sy.2 + 1)
  (⟨xr.1, yr.1, sr.1, sx.1, sy.1, op.1, 1, if burst then 1/50 else 0⟩, op.2)

/-- The for-loop shared by `initParticles`, `createParticleBurst` and
`addParticles`: construct `n` particles in order, threading the random
stream position, and return them in push order. -/
def particleLoop (rand : ℕ → ℚ) (w h : ℚ) (x0 y0 : Option ℚ) (burst : Bool) :
    ℕ → ℕ → List Particle × ℕ
  | 0, i => ([], i)
  | n + 1, i =>
    let pr := mkParticle rand w h x0 y0 burst i
    let rest := particleLoop rand w h x0 y0 burst n pr.2
    (pr.1 :: rest.1, rest.2)

/-- Source function `initParticles`: discards the previous collection and
builds `CONFIG.particles.count` fresh ambient particles
(`new Particle()` with all arguments `undefined`). -/
def initParticles (rand : ℕ → ℚ) (w h : ℚ) (i : ℕ) : List Particle × ℕ :=
  particleLoop rand w h none none false CONFIG_particles_count i

/-- Source function `createParticleBurst(x, y)`: pushes
`CONFIG.animation.particleBurstCount` particles `new Particle(x, y, true)`
onto the existing collection `ps`. -/
def createParticleBurst (rand : ℕ → ℚ) (w h : ℚ) (x y : ℚ)
    (ps : List Particle) (i : ℕ) : List Particle × ℕ :=
  let nw := particleLoop rand w h (some x) (some y) true
    CONFIG_animation_particleBurstCount i
  (ps ++ nw.1, nw.2)

/-- Source method `Particle.update` on a canvas of dimensions `w × h`:
advance position by velocity, apply decay to life and opacity when
`decay > 0`, then wrap each axis: a coordinate strictly above the bound
becomes `0`, then a coordinate strictly below `0` becomes the bound. -/
def Particle.update (w h : ℚ) (p : Particle) : Particle :=
  let x1 := p.x + p.speedX
  let y1 := p.y + p.speedY
  let lifeOp : ℚ × ℚ :=
    if p.decay > 0 then (p.life - p.decay, p.life - p.decay)
    else (p.life, p.opacity)
  let x2 := if x1 > w then 0 else x1
  let x3 := if x2 < 0 then w else x2
  let y2 := if y1 > h then 0 else y1
  let y3 := if y2 < 0 then h else y2
  { p with x := x3, y := y3, life := lifeOp.1, opacity := lifeOp.2 }

/-- The body of the `animate` pass, modelling `Array.prototype.forEach` with
`splice(index, 1)` inside the callback faithfully: the iteration bound `n`
is the length captured when the loop starts, `k` is the current index, and
an index at or beyond the current (shrunken) length is skipped.  A particle
whose updated `life` is ≤ 0 is removed at its index; later elements shift
down and the loop continues with the next index, as in JavaScript. -/
def animateVisit (w h : ℚ) : ℕ → List Particle → ℕ → List Particle
  | 0, ps, _ => ps
  | n + 1, ps, k =>
    if hk : k < ps.length then
      let p := Particle.update w h (ps.get ⟨k, hk⟩)
      if p.life ≤ 0 then animateVisit w h n (ps.eraseIdx k) (k + 1)
      else animateVisit w h n (ps.set k p) (k + 1)
    else
      animateVisit w h n ps (k + 1)

/-- One pass of the source function `animate` (one animation frame): the
`forEach` over the particle collection, with the length captured at entry.
The trailing `requestAnimationFrame(animate)` re-schedule is modelled by
`animateN` below. -/
def animateFrame (w h : ℚ) (ps : List Particle) : List Particle :=
  animateVisit w h ps.length ps 0

/-- Iterate `animateFrame` for `n` display frames (the
`requestAnimationFrame` loop run `n` times). -/
def animateN (w h : ℚ) : ℕ → List Particle → List Particle
  | 0, ps => ps
  | n + 1, ps => animateN w h n (animateFrame w h ps)

/-- A touch point of a touch event: its client coordinates. -/
structure TouchPoint where
  clientX : ℚ
  clientY : ℚ
  deriving Repr, DecidableEq

/-- An interaction event as the handlers see it: `touches` is absent on
pointer events and present (possibly empty) on touch events; `clientX` and
`clientY` are absent on touch events. -/
structure UIEvent where
  touches : Option (List TouchPoint)
  clientX : Option ℚ
  clientY : Option ℚ
  deriving Repr, DecidableEq

/-- Source function `getEventCoords(e)` (cycling variant): start from the
canvas centre; if `e` is defined and has a nonempty `touches` list, take the
first touch point; otherwise, if both `clientX` and `clientY` are defined,
take them; otherwise keep the centre. -/
def getEventCoords (w h : ℚ) (e : Option UIEvent) : ℚ × ℚ :=
  match e with
  | none => (w / 2, h / 2)
  | some ev =>
    match ev.touches with
    | some (t :: _) => (t.clientX, t.clientY)
    | _ =>
      match ev.clientX, ev.clientY with
      | some cx, some cy => (cx, cy)
      | _, _ => (w / 2, h / 2)

/-- The x coordinate computed by the non-cycling variant of
`handleInteraction`: the JS expression
`e.clientX || (e.touches && e.touches[0] ? e.touches[0].clientX : window.innerWidth / 2)`.
`e.clientX` equal to `0` is falsy, so it falls through to the alternative. -/
def handleInteractionX (innerW : ℚ) (e : UIEvent) : ℚ :=
  jsOrQ e.clientX
    (match e.touches with
     | some (t :: _) => t.clientX
     | _ => innerW / 2)

/-- The y coordinate computed by the non-cycling variant of
`handleInteraction`, mirroring `handleInteractionX`. -/
def handleInteractionY (innerH : ℚ) (e : UIEvent) : ℚ :=
  jsOrQ e.clientY
    (match e.touches with
     | some (t :: _) => t.clientY
     | _ => innerH / 2)

/-- One entry of `CONFIG.messages`. -/
structure Msg where
  title : String
  subtitle : String
  deriving Repr, DecidableEq

/-- Configuration value `CONFIG.messages` of the cycling variant. -/
def CONFIG_messages : List Msg :=
  [⟨"Hello, World!", "Welcome to something special"⟩,
   ⟨"Keep Exploring", "There\x27s more to discover"⟩,
   ⟨"Stay Curious", "The journey continues"⟩]

/-- The mutable program state of the cycling variant: the reveal flag, the
DOM class toggles made by the handlers, the text/opacity of the two message
nodes, `CONFIG.currentMessageIndex`, the particle collection, and the
position of the next `Math.random()` value. -/
structure AppState where
  isRevealed : Bool
  instructionHidden : Bool
  hintHidden : Bool
  messageRevealedClass : Bool
  subtitleRevealedClass : Bool
  messageText : String
  subtitleText : String
  messageOpacity : ℚ
  subtitleOpacity : ℚ
  currentMessageIndex : ℕ
  containerActive : Bool
  particles : List Particle
  randPos : ℕ
  deriving Repr, DecidableEq

/-- Source function `cycleMessage(e)` (cycling variant), with its deferred
300 ms callback run to completion: advance `currentMessageIndex` modulo the
message-list length, fade the text out and (after the delay) swap in the new
message and fade back in, and push a burst at the event coordinates. -/
def cycleMessage (rand : ℕ → ℚ) (w h : ℚ) (e : Option UIEvent)
    (s : AppState) : AppState :=
  let idx := (s.currentMessageIndex + 1) % CONFIG_messages.length
  let m := CONFIG_messages.getD idx ⟨"", ""⟩
  let c := getEventCoords w h e
  let pr := createParticleBurst rand w h c.1 c.2 s.particles s.randPos
  { s with
    currentMessageIndex := idx
    messageText := m.title
    subtitleText := m.subtitle
    messageOpacity := 1
    subtitleOpacity := 1
    particles := pr.1
    randPos := pr.2 }

/-- Source function `revealMessage(e)` (cycling variant), with its deferred
reveal callback run to completion: when already revealed it delegates to
`cycleMessage` and returns; otherwise it sets the flag, hides the
instruction and hint, adds the revealed classes and (since
`CONFIG.particles.glowOnReveal` holds) pushes a burst at the event
coordinates. -/
def revealMessage (rand : ℕ → ℚ) (w h : ℚ) (e : Option UIEvent)
    (s : AppState) : AppState :=
  if s.isRevealed then cycleMessage rand w h e s
  else
    let s1 := { s with
      isRevealed := true
      instructionHidden := true
      hintHidden := true
      messageRevealedClass := true
      subtitleRevealedClass := true }
    if CONFIG_particles_glowOnReveal then
      let c := getEventCoords w h e
      let pr := createParticleBurst rand w h c.1 c.2 s1.particles s1.randPos
      { s1 with particles := pr.1, randPos := pr.2 }
    else s1

/-- Source function `handleInteraction(e)` (cycling variant):
`revealMessage(e)` plus the transient container `active` pulse, whose
deferred removal after 100 ms is run to completion (the class ends up
absent). -/
def handleInteraction (rand : ℕ → ℚ) (w h : ℚ) (e : UIEvent)
    (s : AppState) : AppState :=
  { revealMessage rand w h (some e) s with containerActive := false }

/-- Source function `handleKeyPress(e)`: on the space or Enter key it calls
`revealMessage()` with no event; any other key leaves everything alone. -/
def handleKeyPress (rand : ℕ → ℚ) (w h : ℚ) (key : String)
    (s : AppState) : AppState :=
  if key = " " ∨ key = "Enter" then revealMessage rand w h none s else s

/-- One user interaction: a pointer/touch event on the container, or a key
press. -/
inductive Interaction where
  | pointer (e : UIEvent)
  | key (k : String)
  deriving Repr, DecidableEq

/-- Dispatch one interaction to its handler. -/
def stepInteraction (rand : ℕ → ℚ) (w h : ℚ) :
    Interaction → AppState → AppState
  | .pointer e, s => handleInteraction rand w h e s
  | .key k, s => handleKeyPress rand w h k s

/-- Run a sequence of interactions in order. -/
def runInteractions (rand : ℕ → ℚ) (w h : ℚ) :
    List Interaction → AppState → AppState
  | [], s => s
  | i :: is, s => runInteractions rand w h is (stepInteraction rand w h i s)

/-- A call made to the Telegram WebApp host object. -/
inductive HostCall where
  | expand
  | setHeaderColor (c : String)
  | setBackgroundColor (c : String)
  | enableClosingConfirmation
  deriving Repr, DecidableEq

/-- The `window.Telegram` namespace object: its `WebApp` member may itself be
absent. -/
structure TelegramNS where
  webApp : Option Unit
  deriving Repr, DecidableEq

/-- The part of `window` probed by the integration: the optional `Telegram`
object. -/
structure HostWindow where
  telegram : Option TelegramNS
  deriving Repr, DecidableEq

/-- Source function `initTelegramWebApp`: when
`window.Telegram && window.Telegram.WebApp` is truthy, issue the four host
calls in source order; otherwise do nothing.  The function touches no other
program state and always returns normally, so its entire effect is the list
of host calls it makes. -/
def initTelegramWebApp (w : HostWindow) : List HostCall :=
  match w.telegram with
  | some t =>
    match t.webApp with
    | some _ =>
      [HostCall.expand, HostCall.setHeaderColor "#0f0f0f",
       HostCall.setBackgroundColor "#0f0f0f",
       HostCall.enableClosingConfirmation]
    | none => []
  | none => []

/-- A concrete program state used to instantiate theorems about the state
machine. -/
def sampleState : AppState :=
  ⟨false, false, false, false, false, "", "", 1, 1, 0, false, [], 0⟩

/-- The sample state after the reveal flag has been set. -/
def sampleRevealed : AppState :=
  { sampleState with isRevealed := true }

/-- C1 (amended): after one `Particle.update` on a surface of nonnegative
dimensions, each position component lies in the closed interval `[0, w]`
(resp. `[0, h]`): a coordinate that exceeds the upper bound wraps to `0` and
a coordinate that drops below `0` wraps to the upper bound itself, so the
upper bound is attainable and the interval is closed, not half-open. -/
theorem particle_update_wraps_closed (w h : ℚ) (hw : 0 ≤ w) (hh : 0 ≤ h)
    (p : Particle) :
    (0 ≤ (p.update w h).x ∧ (p.update w h).x ≤ w ∧
     0 ≤ (p.update w h).y ∧ (p.update w h).y ≤ h) ∧
    (p.x + p.speedX > w → (p.update w h).x = 0) ∧
    (p.x + p.speedX < 0 → (p.update w h).x = w) ∧
    (p.y + p.speedY > h → (p.update w h).y = 0) ∧
    (p.y + p.speedY < 0 → (p.update w h).y = h) := by
  unfold Particle.update
  dsimp only
  refine ⟨⟨?_, ?_, ?_, ?_⟩, ?_, ?_, ?_, ?_⟩ <;> split_ifs <;>
    first
      | linarith
      | (intro hc; linarith)

/-- Witness for `particle_update_wraps_closed` at a concrete particle and
surface. -/
theorem particle_update_wraps_closed_witness :
    (0:ℚ) ≤ 800 ∧ (0:ℚ) ≤ 600 ∧
    (let p : Particle := ⟨0, 300, 2, -1/2, 0, 3/5, 1, 0⟩
     (0 ≤ (p.update 800 600).x ∧ (p.update 800 600).x ≤ 800 ∧
      0 ≤ (p.update 800 600).y ∧ (p.update 800 600).y ≤ 600) ∧
     (p.x + p.speedX > 800 → (p.update 800 600).x = 0) ∧
     (p.x + p.speedX < 0 → (p.update 800 600).x = 800) ∧
     (p.y + p.speedY > 600 → (p.update 800 600).y = 0) ∧
     (p.y + p.speedY < 0 → (p.update 800 600).y = 600)) :=
  ⟨by norm_num, by norm_num,
   particle_update_wraps_closed 800 600 (by norm_num) (by norm_num)
     ⟨0, 300, 2, -1/2, 0, 3/5, 1, 0⟩⟩

/-- C1 (counterexample): a particle at the left edge moving left wraps to
`x = canvas.width` exactly, so after the update its `x` is not in the
half-open interval `[0, 800)` claimed. -/
theorem particle_update_exceeds_half_open_bounds :
    ((⟨0, 300, 2, -1/2, 0, 3/5, 1, 0⟩ : Particle).update 800 600).x = 800 ∧
    ¬ ((⟨0, 300, 2, -1/2, 0, 3/5, 1, 0⟩ : Particle).update 800 600).x < 800 := by
  constructor <;> norm_num [Particle.update]

/-- C6: `getEventCoords` is a pure function of the event that prefers the
primary touch point, else the pointer client coordinates when both are
defined, and resolves to the exact centre `(w / 2, h / 2)` of the current
surface for an event with neither touch points nor pointer coordinates. -/
theorem getEventCoords_resolution (w h : ℚ) (ev : UIEvent) :
    (∀ t ts, ev.touches = some (t :: ts) →
      getEventCoords w h (some ev) = (t.clientX, t.clientY)) ∧
    ((ev.touches = none ∨ ev.touches = some []) →
      ∀ cx cy, ev.clientX = some cx → ev.clientY = some cy →
        getEventCoords w h (some ev) = (cx, cy)) ∧
    ((ev.touches = none ∨ ev.touches = some []) →
      ev.clientX = none → ev.clientY = none →
      getEventCoords w h (some ev) = (w / 2, h / 2)) := by
  obtain ⟨ts, cx, cy⟩ := ev
  refine ⟨?_, ?_, ?_⟩
  · rintro t rest rfl
    rfl
  · rintro (rfl | rfl) cx' cy' rfl rfl <;> rfl
  · rintro (rfl | rfl) rfl rfl <;> rfl

/-- Witness for `getEventCoords_resolution`: an event with no touches and no
client coordinates resolves to the centre of an 800 × 600 surface. -/
theorem getEventCoords_resolution_witness :
    getEventCoords 800 600 (some ⟨none, none, none⟩) = (400, 300) := by
  have hc := (getEventCoords_resolution 800 600 ⟨none, none, none⟩).2.2
    (Or.inl rfl) rfl rfl
  rw [hc]
  norm_num

/-- C8: when the host mini-app API is absent (no `window.Telegram`, or no
`window.Telegram.WebApp`), the startup integration routine makes no host
calls; it is a total function, so it raises no error and changes no state. -/
theorem initTelegramWebApp_absent_noop (w : HostWindow)
    (habs : w.telegram = none ∨ ∃ t, w.telegram = some t ∧ t.webApp = none) :
    initTelegramWebApp w = [] := by
  obtain ⟨tg⟩ := w
  rcases habs with hn | ⟨t, ht, hwa⟩
  · simp only at hn
    subst hn
    rfl
  · simp only at ht
    subst ht
    obtain ⟨wa⟩ := t
    simp only at hwa
    subst hwa
    rfl

/-- Witness for `initTelegramWebApp_absent_noop` on a window with no
`Telegram` object. -/
theorem initTelegramWebApp_absent_noop_witness :
    initTelegramWebApp ⟨none⟩ = [] :=
  initTelegramWebApp_absent_noop ⟨none⟩ (Or.inl rfl)

/-- C9: in the non-cycling variant, a pointer event without touch points
whose `clientX` (resp. `clientY`) is exactly `0` resolves that coordinate to
the viewport-centre fallback rather than to `0`. -/
theorem handleInteraction_zero_coord_center (innerW innerH : ℚ) (e : UIEvent)
    (hno : e.touches = none ∨ e.touches = some []) :
    (e.clientX = some 0 → handleInteractionX innerW e = innerW / 2) ∧
    (e.clientY = some 0 → handleInteractionY innerH e = innerH / 2) := by
  obtain ⟨ts, cx, cy⟩ := e
  constructor
  · rintro rfl
    rcases hno with h | h <;> simp only at h <;> subst h <;>
      simp [handleInteractionX, jsOrQ]
  · rintro rfl
    rcases hno with h | h <;> simp only at h <;> subst h <;>
      simp [handleInteractionY, jsOrQ]

/-- Witness for `handleInteraction_zero_coord_center`: a click at the exact
top-left corner of a 800 × 600 viewport bursts at the centre. -/
theorem handleInteraction_zero_coord_center_witness :
    handleInteractionX 800 ⟨none, some 0, some 0⟩ = 400 ∧
    handleInteractionY 600 ⟨none, some 0, some 0⟩ = 300 := by
  have hc := handleInteraction_zero_coord_center 800 600
    ⟨none, some 0, some 0⟩ (Or.inl rfl)
  refine ⟨?_, ?_⟩
  · rw [hc.1 rfl]; norm_num
  · rw [hc.2 rfl]; norm_num

/-- C10: a key press whose key is neither the space character nor Enter
leaves the entire program state (reveal flag, DOM class and style state,
message index, particle collection) unchanged. -/
theorem handleKeyPress_other_key_noop (rand : ℕ → ℚ) (w h : ℚ) (key : String)
    (s : AppState) (h1 : key ≠ " ") (h2 : key ≠ "Enter") :
    handleKeyPress rand w h key s = s := by
  unfold handleKeyPress
  simp [h1, h2]

/-- Witness for `handleKeyPress_other_key_noop` on the key `"a"`. -/
theorem handleKeyPress_other_key_noop_witness :
    handleKeyPress (fun _ => 1/2) 800 600 "a" sampleState = sampleState :=
  handleKeyPress_other_key_noop (fun _ => 1/2) 800 600 "a" sampleState
    (by decide) (by decide)

/-- The reveal flag survives `cycleMessage` untouched. -/
theorem cycleMessage_isRevealed (rand : ℕ → ℚ) (w h : ℚ) (e : Option UIEvent)
    (s : AppState) : (cycleMessage rand w h e s).isRevealed = s.isRevealed := by
  unfold cycleMessage
  rfl

/-- Once the reveal flag holds, `revealMessage` keeps it. -/
theorem revealMessage_keeps_revealed (rand : ℕ → ℚ) (w h : ℚ)
    (e : Option UIEvent) (s : AppState) (hs : s.isRevealed = true) :
    (revealMessage rand w h e s).isRevealed = true := by
  unfold revealMessage
  rw [hs]
  simp only [if_true]
  rw [cycleMessage_isRevealed, hs]

/-- Once the reveal flag holds, any single interaction keeps it. -/
theorem stepInteraction_keeps_revealed (rand : ℕ → ℚ) (w h : ℚ)
    (i : Interaction) (s : AppState) (hs : s.isRevealed = true) :
    (stepInteraction rand w h i s).isRevealed = true := by
  cases i with
  | pointer e =>
    show (handleInteraction rand w h e s).isRevealed = true
    unfold handleInteraction
    exact revealMessage_keeps_revealed rand w h (some e) s hs
  | key k =>
    show (handleKeyPress rand w h k s).isRevealed = true
    unfold handleKeyPress
    split
    · exact revealMessage_keeps_revealed rand w h none s hs
    · exact hs

/-- Once the reveal flag holds, any sequence of interactions keeps it. -/
theorem runInteractions_keeps_revealed (rand : ℕ → ℚ) (w h : ℚ)
    (es : List Interaction) (s : AppState) (hs : s.isRevealed = true) :
    (runInteractions rand w h es s).isRevealed = true := by
  induction es generalizing s with
  | nil => exact hs
  | cons i is ih =>
    exact ih (stepInteraction rand w h i s)
      (stepInteraction_keeps_revealed rand w h i s hs)

/-- While revealed, one reveal trigger is exactly a `cycleMessage`. -/
theorem revealMessage_of_revealed (rand : ℕ → ℚ) (w h : ℚ)
    (e : Option UIEvent) (s : AppState) (hs : s.isRevealed = true) :
    revealMessage rand w h e s = cycleMessage rand w h e s := by
  unfold revealMessage
  rw [hs]
  simp only [if_true]

/-- C3: the revealed flag transitions one way and is never reset — from a
revealed state every sequence of further interactions leaves it revealed —
and a reveal trigger arriving while already revealed re-hides nothing and
re-applies no reveal effect (the `hidden` classes of the instruction and
hint and the `revealed` classes of the title and subtitle are untouched); it
only advances the message index by one modulo the message-list length. -/
theorem revealed_monotone_no_rereveal (rand : ℕ → ℚ) (w h : ℚ)
    (s : AppState) (hs : s.isRevealed = true) :
    (∀ es : List Interaction,
      (runInteractions rand w h es s).isRevealed = true) ∧
    (∀ e : Option UIEvent,
      (revealMessage rand w h e s).isRevealed = true ∧
      (revealMessage rand w h e s).instructionHidden = s.instructionHidden ∧
      (revealMessage rand w h e s).hintHidden = s.hintHidden ∧
      (revealMessage rand w h e s).messageRevealedClass =
        s.messageRevealedClass ∧
      (revealMessage rand w h e s).subtitleRevealedClass =
        s.subtitleRevealedClass ∧
      (revealMessage rand w h e s).currentMessageIndex =
        (s.currentMessageIndex + 1) % CONFIG_messages.length) := by
  constructor
  · intro es
    exact runInteractions_keeps_revealed rand w h es s hs
  · intro e
    rw [revealMessage_of_revealed rand w h e s hs]
    refine ⟨?_, ?_, ?_, ?_, ?_, ?_⟩ <;>
      simp [cycleMessage, hs]

/-- Witness for `revealed_monotone_no_rereveal` at a concrete revealed
state. -/
theorem revealed_monotone_no_rereveal_witness :
    sampleRevealed.isRevealed = true ∧
    ((∀ es : List Interaction,
      (runInteractions (fun _ => 1/2) 800 600 es sampleRevealed).isRevealed
        = true) ∧
    (∀ e : Option UIEvent,
      (revealMessage (fun _ => 1/2) 800 600 e sampleRevealed).isRevealed
        = true ∧
      (revealMessage (fun _ => 1/2) 800 600 e
        sampleRevealed).instructionHidden = sampleRevealed.instructionHidden ∧
      (revealMessage (fun _ => 1/2) 800 600 e sampleRevealed).hintHidden =
        sampleRevealed.hintHidden ∧
      (revealMessage (fun _ => 1/2) 800 600 e
        sampleRevealed).messageRevealedClass =
        sampleRevealed.messageRevealedClass ∧
      (revealMessage (fun _ => 1/2) 800 600 e
        sampleRevealed).subtitleRevealedClass =
        sampleRevealed.subtitleRevealedClass ∧
      (revealMessage (fun _ => 1/2) 800 600 e
        sampleRevealed).currentMessageIndex =
        (sampleRevealed.currentMessageIndex + 1) % CONFIG_messages.length)) :=
  ⟨rfl, revealed_monotone_no_rereveal (fun _ => 1/2) 800 600 sampleRevealed rfl⟩

/-- While revealed, a reveal trigger advances the index by one modulo the
message-list length. -/
theorem revealMessage_index_of_revealed (rand : ℕ → ℚ) (w h : ℚ)
    (e : Option UIEvent) (s : AppState) (hs : s.isRevealed = true) :
    (revealMessage rand w h e s).currentMessageIndex =
      (s.currentMessageIndex + 1) % CONFIG_messages.length := by
  rw [revealMessage_of_revealed rand w h e s hs]
  simp [cycleMessage]

/-- C5: message cycling is strictly modular — each cycle trigger while
revealed advances the index by exactly one modulo the message-list length;
from index 0 three consecutive triggers return the index to 0; and after the
deferred fade-in completes the displayed title and subtitle are those of
`messages[currentIndex]`. -/
theorem cycleMessage_strictly_modular (rand : ℕ → ℚ) (w h : ℚ)
    (e1 e2 e3 : Option UIEvent) (s : AppState) (hs : s.isRevealed = true) :
    ((revealMessage rand w h e1 s).currentMessageIndex =
      (s.currentMessageIndex + 1) % CONFIG_messages.length) ∧
    (s.currentMessageIndex = 0 →
      (revealMessage rand w h e3 (revealMessage rand w h e2
        (revealMessage rand w h e1 s))).currentMessageIndex = 0) ∧
    ((revealMessage rand w h e1 s).messageText =
      (CONFIG_messages.getD
        ((revealMessage rand w h e1 s).currentMessageIndex) ⟨"", ""⟩).title) ∧
    ((revealMessage rand w h e1 s).subtitleText =
      (CONFIG_messages.getD
        ((revealMessage rand w h e1 s).currentMessageIndex)
        ⟨"", ""⟩).subtitle) := by
  have h1 : (revealMessage rand w h e1 s).isRevealed = true :=
    revealMessage_keeps_revealed rand w h e1 s hs
  have h2 : (revealMessage rand w h e2
      (revealMessage rand w h e1 s)).isRevealed = true :=
    revealMessage_keeps_revealed rand w h e2 _ h1
  refine ⟨revealMessage_index_of_revealed rand w h e1 s hs, ?_, ?_, ?_⟩
  · intro h0
    rw [revealMessage_index_of_revealed rand w h e3 _ h2,
      revealMessage_index_of_revealed rand w h e2 _ h1,
      revealMessage_index_of_revealed rand w h e1 s hs, h0]
    rfl
  · rw [revealMessage_of_revealed rand w h e1 s hs]
    simp [cycleMessage]
  · rw [revealMessage_of_revealed rand w h e1 s hs]
    simp [cycleMessage]

/-- Witness for `cycleMessage_strictly_modular` at a concrete revealed state
with index 0. -/
theorem cycleMessage_strictly_modular_witness :
    sampleRevealed.isRevealed = true ∧
    sampleRevealed.currentMessageIndex = 0 ∧
    (revealMessage (fun _ => 1/2) 800 600 none
      (revealMessage (fun _ => 1/2) 800 600 none
        (revealMessage (fun _ => 1/2) 800 600 none
          sampleRevealed))).currentMessageIndex = 0 :=
  ⟨rfl, rfl,
    (cycleMessage_strictly_modular (fun _ => 1/2) 800 600 none none none
      sampleRevealed rfl).2.1 rfl⟩

/-- The particle loop builds exactly `n` particles. -/
theorem particleLoop_length (rand : ℕ → ℚ) (w h : ℚ) (x0 y0 : Option ℚ)
    (burst : Bool) : ∀ n i,
    (particleLoop rand w h x0 y0 burst n i).1.length = n := by
  intro n
  induction n with
  | zero => intro i; rfl
  | succ m ih =>
    intro i
    simp [particleLoop, ih]

/-- Every particle built by the loop is the constructor output at some
stream position. -/
theorem particleLoop_mem (rand : ℕ → ℚ) (w h : ℚ) (x0 y0 : Option ℚ)
    (burst : Bool) : ∀ n i p, p ∈ (particleLoop rand w h x0 y0 burst n i).1 →
    ∃ j, p = (mkParticle rand w h x0 y0 burst j).1 := by
  intro n
  induction n with
  | zero => intro i p hp; simp [particleLoop] at hp
  | succ m ih =>
    intro i p hp
    simp only [particleLoop, List.mem_cons] at hp
    rcases hp with rfl | hp
    · exact ⟨i, rfl⟩
    · exact ih _ p hp

/-- The burst constructor with nonzero coordinates, written out field by
field. -/
theorem mkParticle_burst_eq (rand : ℕ → ℚ) (w h x y : ℚ) (j : ℕ)
    (hx : x ≠ 0) (hy : y ≠ 0) :
    (mkParticle rand w h (some x) (some y) true j).1 =
      ⟨x, y, rand j * 3 + 1, (rand (j + 1) - 1/2) * 2,
       (rand (j + 2) - 1/2) * 2, 1, 1, 1/50⟩ := by
  simp [mkParticle, hx, hy]

/-- The ambient constructor (all arguments `undefined`), written out field
by field. -/
theorem mkParticle_ambient_eq (rand : ℕ → ℚ) (w h : ℚ) (j : ℕ) :
    (mkParticle rand w h none none false j).1 =
      ⟨rand j * w, rand (j + 1) * h, CONFIG_particles_size,
       (rand (j + 2) - 1/2) * CONFIG_particles_maxSpeed,
       (rand (j + 3) - 1/2) * CONFIG_particles_maxSpeed,
       rand (j + 4) * (1/2) + 3/10, 1, 0⟩ := by
  simp [mkParticle]

/-- C4 (amended): `createParticleBurst` leaves the existing collection as a
prefix, untouched, and appends exactly `CONFIG.animation.particleBurstCount`
particles, each with full opacity, life 1, per-frame decay 0.02, size in
[1, 4] and velocity components in [-1, 1]; each appended particle sits at
the given origin provided both origin coordinates are nonzero (a zero
coordinate is falsy in the constructor's `x || …` defaulting and is replaced
by a random position along that axis). -/
theorem createParticleBurst_appends_spec (rand : ℕ → ℚ) (w h x y : ℚ)
    (ps : List Particle) (i : ℕ)
    (hr : ∀ j, 0 ≤ rand j ∧ rand j < 1) (hx : x ≠ 0) (hy : y ≠ 0) :
    (createParticleBurst rand w h x y ps i).1 =
      ps ++ (particleLoop rand w h (some x) (some y) true
        CONFIG_animation_particleBurstCount i).1 ∧
    (createParticleBurst rand w h x y ps i).1.length =
      ps.length + CONFIG_animation_particleBurstCount ∧
    ∀ p ∈ (particleLoop rand w h (some x) (some y) true
        CONFIG_animation_particleBurstCount i).1,
      p.x = x ∧ p.y = y ∧ 1 ≤ p.size ∧ p.size ≤ 4 ∧
      -1 ≤ p.speedX ∧ p.speedX ≤ 1 ∧ -1 ≤ p.speedY ∧ p.speedY ≤ 1 ∧
      p.opacity = 1 ∧ p.life = 1 ∧ p.decay = 1/50 := by
  refine ⟨rfl, ?_, ?_⟩
  · simp [createParticleBurst, particleLoop_length]
  · intro p hp
    obtain ⟨j, rfl⟩ := particleLoop_mem rand w h (some x) (some y) true _ i p hp
    rw [mkParticle_burst_eq rand w h x y j hx hy]
    obtain ⟨h0, h1⟩ := hr j
    obtain ⟨h2, h3⟩ := hr (j + 1)
    obtain ⟨h4, h5⟩ := hr (j + 2)
    refine ⟨rfl, rfl, by linarith, by linarith, by linarith, by linarith,
      by linarith, by linarith, rfl, rfl, rfl⟩

/-- Witness for `createParticleBurst_appends_spec` at a concrete stream,
origin and collection. -/
theorem createParticleBurst_appends_spec_witness :
    (∀ j : ℕ, 0 ≤ (fun _ : ℕ => (1:ℚ)/2) j ∧ (fun _ : ℕ => (1:ℚ)/2) j < 1) ∧
    (createParticleBurst (fun _ => 1/2) 800 600 400 300 [] 0).1 =
      [] ++ (particleLoop (fun _ => 1/2) 800 600 (some 400) (some 300) true
        CONFIG_animation_particleBurstCount 0).1 ∧
    (createParticleBurst (fun _ => 1/2) 800 600 400 300 [] 0).1.length =
      List.length ([] : List Particle) + CONFIG_animation_particleBurstCount ∧
    ∀ p ∈ (particleLoop (fun _ => 1/2) 800 600 (some 400) (some 300) true
        CONFIG_animation_particleBurstCount 0).1,
      p.x = 400 ∧ p.y = 300 ∧ 1 ≤ p.size ∧ p.size ≤ 4 ∧
      -1 ≤ p.speedX ∧ p.speedX ≤ 1 ∧ -1 ≤ p.speedY ∧ p.speedY ≤ 1 ∧
      p.opacity = 1 ∧ p.life = 1 ∧ p.decay = 1/50 :=
  ⟨fun _ => ⟨by norm_num, by norm_num⟩,
   createParticleBurst_appends_spec (fun _ => 1/2) 800 600 400 300 [] 0
     (fun _ => ⟨by norm_num, by norm_num⟩) (by norm_num) (by norm_num)⟩

/-- C4 (counterexample): a burst requested at the origin `(0, 300)` does not
place its particles at that origin — with the random stream constantly 1/2
on an 800 × 600 canvas, the first appended particle has `x = 400`, because
`x || Math.random() * canvas.width` treats the coordinate `0` as absent. -/
theorem createParticleBurst_zero_origin_counterexample :
    ((createParticleBurst (fun _ => 1/2) 800 600 0 300 [] 0).1.head?).map
      Particle.x = some 400 ∧ (400:ℚ) ≠ 0 := by
  constructor
  · show (((particleLoop (fun _ => 1/2) 800 600 (some 0) (some 300) true
      CONFIG_animation_particleBurstCount 0).1).head?).map Particle.x
        = some 400
    rw [show CONFIG_animation_particleBurstCount = 15 from rfl]
    simp only [particleLoop, List.head?]
    simp [mkParticle]
    norm_num
  · norm_num

/-- C7: `initParticles` builds exactly `CONFIG.particles.count` fresh
particles (the previous collection is discarded wholesale); on an 800 × 600
surface each one has `0 ≤ x < 800`, `0 ≤ y < 600`, the configured ambient
size, speed components within `[-maxSpeed / 2, maxSpeed / 2]`, and opacity
within `[0.3, 0.8]`. -/
theorem initParticles_spec (rand : ℕ → ℚ) (i : ℕ)
    (hr : ∀ j, 0 ≤ rand j ∧ rand j < 1) :
    (initParticles rand 800 600 i).1.length = CONFIG_particles_count ∧
    ∀ p ∈ (initParticles rand 800 600 i).1,
      0 ≤ p.x ∧ p.x < 800 ∧ 0 ≤ p.y ∧ p.y < 600 ∧
      p.size = CONFIG_particles_size ∧
      -(CONFIG_particles_maxSpeed / 2) ≤ p.speedX ∧
      p.speedX ≤ CONFIG_particles_maxSpeed / 2 ∧
      -(CONFIG_particles_maxSpeed / 2) ≤ p.speedY ∧
      p.speedY ≤ CONFIG_particles_maxSpeed / 2 ∧
      3/10 ≤ p.opacity ∧ p.opacity ≤ 4/5 := by
  constructor
  · exact particleLoop_length rand 800 600 none none false _ i
  · intro p hp
    obtain ⟨j, rfl⟩ := particleLoop_mem rand 800 600 none none false _ i p hp
    rw [mkParticle_ambient_eq rand 800 600 j]
    obtain ⟨h0, h1⟩ := hr j
    obtain ⟨h2, h3⟩ := hr (j + 1)
    obtain ⟨h4, h5⟩ := hr (j + 2)
    obtain ⟨h6, h7⟩ := hr (j + 3)
    obtain ⟨h8, h9⟩ := hr (j + 4)
    rw [show CONFIG_particles_maxSpeed = 1/2 from rfl]
    refine ⟨by positivity, by nlinarith, by positivity, by nlinarith, rfl,
      by nlinarith, by nlinarith, by nlinarith, by nlinarith,
      by nlinarith, by nlinarith⟩

/-- Witness for `initParticles_spec` at a concrete stream. -/
theorem initParticles_spec_witness :
    (∀ j : ℕ, 0 ≤ (fun _ : ℕ => (1:ℚ)/2) j ∧ (fun _ : ℕ => (1:ℚ)/2) j < 1) ∧
    (initParticles (fun _ => 1/2) 800 600 0).1.length =
      CONFIG_particles_count ∧
    ∀ p ∈ (initParticles (fun _ => 1/2) 800 600 0).1,
      0 ≤ p.x ∧ p.x < 800 ∧ 0 ≤ p.y ∧ p.y < 600 ∧
      p.size = CONFIG_particles_size ∧
      -(CONFIG_particles_maxSpeed / 2) ≤ p.speedX ∧
      p.speedX ≤ CONFIG_particles_maxSpeed / 2 ∧
      -(CONFIG_particles_maxSpeed / 2) ≤ p.speedY ∧
      p.speedY ≤ CONFIG_particles_maxSpeed / 2 ∧
      3/10 ≤ p.opacity ∧ p.opacity ≤ 4/5 :=
  ⟨fun _ => ⟨by norm_num, by norm_num⟩,
   (initParticles_spec (fun _ => 1/2) 0
     (fun _ => ⟨by norm_num, by norm_num⟩)).1,
   (initParticles_spec (fun _ => 1/2) 0
     (fun _ => ⟨by norm_num, by norm_num⟩)).2⟩

/-- Erasing an index of a constant list drops one copy. -/
theorem eraseIdx_replicate {α : Type} (a : α) :
    ∀ l k, k < l → (List.replicate l a).eraseIdx k = List.replicate (l - 1) a := by
  intro l
  induction l with
  | zero => intro k hk; omega
  | succ m ih =>
    intro k hk
    cases k with
    | zero => simp [List.replicate_succ]
    | succ k' =>
      have hk' : k' < m := by omega
      rw [List.replicate_succ, List.eraseIdx_cons_succ, ih k' hk']
      cases m with
      | zero => omega
      | succ m' => simp [List.replicate_succ]

/-- The splice-inside-forEach loop on a constant list all of whose updates
die: each removal shifts the next element onto the index just visited, so
that element is skipped; of the elements between the cursor and the end of
the shrinking list, only every other one is visited and removed. -/
theorem animateVisit_all_die (w h : ℚ) (p : Particle)
    (hd : (Particle.update w h p).life ≤ 0) :
    ∀ n l k, animateVisit w h n (List.replicate l p) k =
      List.replicate (l - min n ((l - k + 1) / 2)) p := by
  intro n
  induction n with
  | zero => intro l k; simp [animateVisit]
  | succ m ih =>
    intro l k
    simp only [animateVisit]
    by_cases hk : k < (List.replicate l p).length
    · rw [dif_pos hk]
      have hkl : k < l := by simpa using hk
      have hget : (List.replicate l p).get ⟨k, hk⟩ = p := by simp
      rw [hget, if_pos hd, eraseIdx_replicate p l k hkl, ih (l - 1) (k + 1)]
      congr 1
      omega
    · rw [dif_neg hk]
      have hkl : ¬ k < l := by simpa using hk
      rw [ih l (k + 1)]
      congr 1
      omega

/-- Reading the element just after a known prefix. -/
theorem get_append_cons_length {α : Type} (qs : List α) (r : α) (rs : List α)
    (hlt : qs.length < (qs ++ r :: rs).length) :
    (qs ++ r :: rs).get ⟨qs.length, hlt⟩ = r := by
  rw [List.get_eq_getElem, List.getElem_append_right (le_refl qs.length)]
  simp

/-- Writing the element just after a known prefix. -/
theorem set_append_cons_length {α : Type} (qs : List α) (r x : α) (rs : List α) :
    (qs ++ r :: rs).set qs.length x = qs ++ x :: rs := by
  induction qs with
  | nil => rfl
  | cons a as ih => simp [List.set, ih]

/-- When no visited particle dies, the forEach pass visits every element
once, in order, and replaces it by its update. -/
theorem animateVisit_alive (w h : ℚ) :
    ∀ rs qs : List Particle,
    (∀ p ∈ rs, ¬ (Particle.update w h p).life ≤ 0) →
    animateVisit w h rs.length (qs ++ rs) qs.length =
      qs ++ rs.map (Particle.update w h) := by
  intro rs
  induction rs with
  | nil => intro qs _; simp [animateVisit]
  | cons r rs ih =>
    intro qs hal
    have hlt : qs.length < (qs ++ r :: rs).length := by simp
    simp only [List.length_cons, animateVisit]
    rw [dif_pos hlt, get_append_cons_length qs r rs hlt,
      if_neg (hal r (List.mem_cons_self r rs)),
      set_append_cons_length qs r (Particle.update w h r) rs]
    have h1 : qs ++ Particle.update w h r :: rs
        = (qs ++ [Particle.update w h r]) ++ rs := by simp
    have h2 : qs.length + 1 = (qs ++ [Particle.update w h r]).length := by simp
    rw [h1, h2, ih (qs ++ [Particle.update w h r])
      (fun p hp => hal p (List.mem_cons_of_mem r hp))]
    simp

/-- A frame in which every particle survives is a plain map of the update. -/
theorem animateFrame_alive (w h : ℚ) (ps : List Particle)
    (hal : ∀ p ∈ ps, ¬ (Particle.update w h p).life ≤ 0) :
    animateFrame w h ps = ps.map (Particle.update w h) := by
  have hv := animateVisit_alive w h ps [] hal
  simpa [animateFrame] using hv

/-- A frame on a constant list all of whose updates die removes only every
other particle: half the list (rounded down) survives the pass, unvisited
and unmodified. -/
theorem animateFrame_all_die (w h : ℚ) (p : Particle)
    (hd : (Particle.update w h p).life ≤ 0) (l : ℕ) :
    animateFrame w h (List.replicate l p) = List.replicate (l / 2) p := by
  have hv := animateVisit_all_die w h p hd l l 0
  rw [animateFrame, List.length_replicate, hv]
  congr 1
  omega

/-- Splitting a run of frames. -/
theorem animateN_add (w h : ℚ) : ∀ a b ps,
    animateN w h (a + b) ps = animateN w h b (animateN w h a ps) := by
  intro a
  induction a with
  | zero => intro b ps; rw [Nat.zero_add]; rfl
  | succ a ih =>
    intro b ps
    have hs : a + 1 + b = (a + b) + 1 := by omega
    rw [hs]
    show animateN w h (a + b) (animateFrame w h ps) = _
    rw [ih b (animateFrame w h ps)]
    rfl

/-- A single frame. -/
theorem animateN_one (w h : ℚ) (ps : List Particle) :
    animateN w h 1 ps = animateFrame w h ps := rfl

/-- The state of one of the 15 burst particles of the failing scenario after
`k` updates: position fixed at (400, 300) since its velocity components are
0, life and opacity at `1 - k / 50`. -/
def burstAfter (k : ℕ) : Particle :=
  ⟨400, 300, 5/2, 0, 0, 1 - (k : ℚ)/50, 1 - (k : ℚ)/50, 1/50⟩

/-- One update of a scenario burst particle decrements `k`s worth of life by
one step. -/
theorem update_burstAfter (k : ℕ) :
    Particle.update 800 600 (burstAfter k) = burstAfter (k + 1) := by
  simp only [Particle.update, burstAfter]
  norm_num
  ring

/-- Before its 50th update a scenario burst particle survives the pass. -/
theorem burstAfter_alive (k : ℕ) (hk : k < 49) :
    ¬ (Particle.update 800 600 (burstAfter k)).life ≤ 0 := by
  rw [update_burstAfter]
  show ¬ ((1 : ℚ) - ((k + 1 : ℕ) : ℚ)/50 ≤ 0)
  push_cast
  have hkq : (k : ℚ) ≤ 48 := by exact_mod_cast Nat.le_of_lt_succ hk
  intro hc
  linarith

/-- The 50th update brings a scenario burst particle to life exactly 0. -/
theorem burstAfter_dead :
    (Particle.update 800 600 (burstAfter 49)).life ≤ 0 := by
  rw [update_burstAfter]
  show (1 : ℚ) - ((49 + 1 : ℕ) : ℚ)/50 ≤ 0
  norm_num

/-- While every particle survives, running `j` frames on `m` copies maps the
whole list forward `j` updates. -/
theorem animateN_burstAfter (m : ℕ) : ∀ j k, k + j ≤ 49 →
    animateN 800 600 j (List.replicate m (burstAfter k)) =
      List.replicate m (burstAfter (k + j)) := by
  intro j
  induction j with
  | zero => intro k _; rfl
  | succ i ih =>
    intro k hk
    show animateN 800 600 i
      (animateFrame 800 600 (List.replicate m (burstAfter k))) = _
    rw [animateFrame_alive 800 600 _ (fun p hp => by
      rw [List.eq_of_mem_replicate hp]
      exact burstAfter_alive k (by omega))]
    rw [List.map_replicate, update_burstAfter, ih (k + 1) (by omega)]
    congr 2
    omega

/-- C2: evaluation of the code at the failing input.  A burst of 15
particles created at (400, 300) with decay 0.02 (modelled with the random
stream constantly 1/2, which gives every burst particle velocity 0) is the
constant list of 15 copies of `burstAfter 0`; after 50 animation frames the
collection still holds 7 particles, not 0 — `splice` inside `forEach`
shifts the element after each removed particle onto the visited index, so
of the 15 particles that reach life 0 simultaneously at frame 50 only every
other one is removed per pass — and the collection only empties at
frame 53. -/
theorem animate_burst15_not_all_removed_at_50 :
    (createParticleBurst (fun _ => 1/2) 800 600 400 300 [] 0).1 =
      List.replicate 15 (burstAfter 0) ∧
    (animateN 800 600 50 (List.replicate 15 (burstAfter 0))).length = 7 ∧
    animateN 800 600 53 (List.replicate 15 (burstAfter 0)) = [] := by
  have hinit : (createParticleBurst (fun _ => 1/2) 800 600 400 300 [] 0).1 =
      List.replicate 15 (burstAfter 0) := by
    rw [List.eq_replicate_iff]
    constructor
    · simpa [createParticleBurst] using
        particleLoop_length (fun _ => 1/2) 800 600 (some 400) (some 300) true
          CONFIG_animation_particleBurstCount 0
    · intro b hb
      simp only [createParticleBurst, List.nil_append] at hb
      obtain ⟨j, rfl⟩ := particleLoop_mem (fun _ => 1/2) 800 600 (some 400)
        (some 300) true CONFIG_animation_particleBurstCount 0 b hb
      rw [mkParticle_burst_eq (fun _ => 1/2) 800 600 400 300 j
        (by norm_num) (by norm_num)]
      simp only [burstAfter, Particle.mk.injEq]
      norm_num
  have h49 : animateN 800 600 49 (List.replicate 15 (burstAfter 0)) =
      List.replicate 15 (burstAfter 49) := by
    have hrun := animateN_burstAfter 15 49 0 (by omega)
    simpa using hrun
  have h50 : animateN 800 600 50 (List.replicate 15 (burstAfter 0)) =
      List.replicate 7 (burstAfter 49) := by
    rw [show (50 : ℕ) = 49 + 1 from rfl, animateN_add, h49, animateN_one,
      animateFrame_all_die 800 600 _ burstAfter_dead 15]
  have h51 : animateN 800 600 51 (List.replicate 15 (burstAfter 0)) =
      List.replicate 3 (burstAfter 49) := by
    rw [show (51 : ℕ) = 50 + 1 from rfl, animateN_add, h50, animateN_one,
      animateFrame_all_die 800 600 _ burstAfter_dead 7]
  have h52 : animateN 800 600 52 (List.replicate 15 (burstAfter 0)) =
      List.replicate 1 (burstAfter 49) := by
    rw [show (52 : ℕ) = 51 + 1 from rfl, animateN_add, h51, animateN_one,
      animateFrame_all_die 800 600 _ burstAfter_dead 3]
  have h53 : animateN 800 600 53 (List.replicate 15 (burstAfter 0)) =
      List.replicate 0 (burstAfter 49) := by
    rw [show (53 : ℕ) = 52 + 1 from rfl, animateN_add, h52, animateN_one,
      animateFrame_all_die 800 600 _ burstAfter_dead 1]
  exact ⟨hinit, by rw [h50]; rfl, by rw [h53]; rfl⟩
